import Mathlib

/-!
Shallow embedding of the canvas drawing board component
(`src/components/canvas/CanvasBoard.tsx`) of the stylus-scribble-studio
repository.

Modelling conventions:
* JavaScript numbers are modelled as `ℚ` (the arithmetic the component
  performs on them is exact on the inputs of interest).
* The fabric.js canvas is modelled by the data the component observes and
  mutates through its API: the ordered list of objects (`getObjects`,
  `add` appends, `remove` deletes) and the active object / active
  selection (`setActiveObject`, `discardActiveObject`).
* React `useState` state is passed explicitly; each event handler becomes
  a function from the state it reads to the state it writes.
* Purely visual effects (overlay clearing, `renderAll`, preview drawing,
  cursors, toasts) have no observable state in the claims and are not
  modelled.
-/

/-- A recorded pointer sample (`type Pt` in the source): position,
pressure and timestamp. -/
structure Pt where
  x : ℚ
  y : ℚ
  pressure : ℚ
  t : ℚ
deriving DecidableEq

instance : Inhabited Pt := ⟨⟨0, 0, 0, 0⟩⟩

/-- A 2-D point, as returned by fabric's `obj.getCenterPoint()`. -/
structure Point2 where
  x : ℚ
  y : ℚ
deriving DecidableEq

instance : Inhabited Point2 := ⟨⟨0, 0⟩⟩

/-- JavaScript's `Number.prototype.toFixed(2)`: the number rendered with
exactly two digits after the decimal point.  Per the ECMAScript algorithm
the sign is taken out first and the magnitude is rounded to the nearest
hundredth, ties toward the larger value. -/
def toFixed2 (q : ℚ) : String :=
  let sgn := if q < 0 then "-" else ""
  let n : ℤ := ⌊|q| * 100 + 1 / 2⌋
  let ip := n / 100
  let fp := n % 100
  sgn ++ toString ip ++ "." ++ (if fp < 10 then "0" else "") ++ toString fp

/-- Source function `getSvgPathFromStroke`: folds over the outline points
with their indices (JavaScript's `reduce`), emitting `M`/`L` commands and,
at the last index, an extra `L` back to `arr[(i + 1) % arr.length]`
(which is `arr[0]` there) followed by `Z`. -/
def getSvgPathFromStroke (points : List (ℚ × ℚ)) : String :=
  if points.length = 0 then ""
  else
    points.enum.foldl
      (fun acc ip =>
        let i := ip.1
        let x0 := ip.2.1
        let y0 := ip.2.2
        let nxt := points.getD ((i + 1) % points.length) default
        let acc1 := acc ++ (if i = 0 then "M" else "L") ++ toFixed2 x0 ++ " " ++ toFixed2 y0 ++ " "
        if i = points.length - 1 then
          acc1 ++ "L" ++ toFixed2 nxt.1 ++ " " ++ toFixed2 nxt.2 ++ " Z"
        else acc1)
      ""

/-- Concatenation of the strings produced from each list element, used to
state the shape of the produced SVG path. -/
def strConcatMap {α : Type} (f : α → String) : List α → String
  | [] => ""
  | a :: as => f a ++ strConcatMap f as

/-- An SVG coordinate pair as the source formats it: `x.toFixed(2)`,
a space, `y.toFixed(2)`. -/
def fmtPoint (p : ℚ × ℚ) : String :=
  toFixed2 p.1 ++ " " ++ toFixed2 p.2

/-- The path shape claimed of `getSvgPathFromStroke`: empty input gives
the empty string; otherwise an `M` command at the first point, an `L`
command for each subsequent point, and a final `L` command back to the
first point followed by `Z`. -/
def svgPathSpecFromStroke (points : List (ℚ × ℚ)) : String :=
  match points with
  | [] => ""
  | p0 :: rest =>
    "M" ++ fmtPoint p0 ++ " " ++
      strConcatMap (fun p => "L" ++ fmtPoint p ++ " ") rest ++
      ("L" ++ fmtPoint p0 ++ " Z")

/-- The string appended to the accumulator for entry `(i, (x0, y0))` of
the indexed fold inside `getSvgPathFromStroke` (proof helper). -/
def svgSeg (points : List (ℚ × ℚ)) (ip : ℕ × ℚ × ℚ) : String :=
  let nxt := points.getD ((ip.1 + 1) % points.length) default
  (if ip.1 = 0 then "M" else "L") ++ toFixed2 ip.2.1 ++ " " ++ toFixed2 ip.2.2 ++ " " ++
    (if ip.1 = points.length - 1 then "L" ++ toFixed2 nxt.1 ++ " " ++ toFixed2 nxt.2 ++ " Z"
     else "")

/-- Source function `isPointInPolygon`: the ray-casting loop
`for (i = 0, j = n - 1; i < n; j = i++)` that flips `inside` whenever the
edge from `polygon[j]` to `polygon[i]` straddles the point's `y` and the
point lies left of the edge at that height. -/
def isPointInPolygon (point : Point2) (polygon : List Pt) : Bool :=
  (List.range polygon.length).foldl
    (fun inside i =>
      let j := if i = 0 then polygon.length - 1 else i - 1
      let pI := polygon.getD i default
      let pJ := polygon.getD j default
      if (decide (pI.y > point.y) != decide (pJ.y > point.y))
          && decide (point.x < (pJ.x - pI.x) * (point.y - pI.y) / (pJ.y - pI.y) + pI.x)
      then !inside else inside)
    false

/-- The loop body's crossing test of `isPointInPolygon`, as a boolean
function of the edge index (proof helper). -/
def edgeCrossedB (point : Point2) (polygon : List Pt) (i : ℕ) : Bool :=
  let j := if i = 0 then polygon.length - 1 else i - 1
  let pI := polygon.getD i default
  let pJ := polygon.getD j default
  (decide (pI.y > point.y) != decide (pJ.y > point.y))
    && decide (point.x < (pJ.x - pI.x) * (point.y - pI.y) / (pJ.y - pI.y) + pI.x)

/-- The crossing condition for edge `(i, j)` of the polygon (with `j` the
predecessor index, wrapping to the last index when `i = 0`): the two
endpoints' `y > point.y` tests differ and `point.x` is left of the edge's
`x` at the point's height. -/
def edgeCrossed (point : Point2) (polygon : List Pt) (i : ℕ) : Prop :=
  let j := if i = 0 then polygon.length - 1 else i - 1
  let pI := polygon.getD i default
  let pJ := polygon.getD j default
  Xor' (pI.y > point.y) (pJ.y > point.y) ∧
    point.x < (pJ.x - pI.x) * (point.y - pI.y) / (pJ.y - pI.y) + pI.x

instance (point : Point2) (polygon : List Pt) (i : ℕ) :
    Decidable (edgeCrossed point polygon i) := by
  unfold edgeCrossed; infer_instance

/-- The number of polygon edges crossed by the horizontal ray from the
point, counting edge `(i, j)` exactly under `edgeCrossed`. -/
def crossingCount (point : Point2) (polygon : List Pt) : ℕ :=
  (List.range polygon.length).countP (fun i => decide (edgeCrossed point polygon i))

/-- A fabric.js canvas object, as far as the component observes one:
its kind with the construction data the component supplies, plus the
center point that `getCenterPoint()` reports (geometry computed by the
library, hence carried as data). -/
inductive FabricObject where
  | path (pathData : String) (fill : String) (center : Point2)
  | rect (fill : String) (center : Point2)
  | circle (fill : String) (center : Point2)
deriving DecidableEq

instance : Inhabited FabricObject := ⟨.rect "" ⟨0, 0⟩⟩

/-- Fabric's `obj.getCenterPoint()`. -/
def FabricObject.getCenterPoint : FabricObject → Point2
  | .path _ _ c => c
  | .rect _ c => c
  | .circle _ c => c

/-- The canvas's active object: a single object or an `ActiveSelection`
of several. -/
inductive ActiveObject where
  | single (o : FabricObject)
  | selection (objs : List FabricObject)
deriving DecidableEq

/-- The fabric canvas state observed by the component: the ordered object
list and the current active object, if any. -/
structure CanvasState where
  objects : List FabricObject
  active : Option ActiveObject
deriving DecidableEq

/-- Source function `finalizeLasso`: with fewer than 3 recorded points it
does nothing; otherwise it collects the objects whose center passes
`isPointInPolygon` against the lasso points and, if any were collected,
discards the current active object and activates the single object or an
`ActiveSelection` of all of them. -/
def finalizeLasso (pts : List Pt) (st : CanvasState) : CanvasState :=
  if pts.length < 3 then st
  else
    let selectedObjects :=
      st.objects.filter (fun o => isPointInPolygon o.getCenterPoint pts)
    if 0 < selectedObjects.length then
      if selectedObjects.length = 1 then
        { st with active := some (.single (selectedObjects.getD 0 default)) }
      else
        { st with active := some (.selection selectedObjects) }
    else st

/-- Source function `finalizeStroke`, parametrised by the external
perfect-freehand `getStroke` (with the component's options baked in) and
by the center fabric computes for the new path.  With fewer than 2
samples, or an empty outline, nothing happens; otherwise one new
`FabricPath` filled with the current color and carrying
`getSvgPathFromStroke` of the outline is added to the canvas. -/
def finalizeStroke (getStrokeFn : List (ℚ × ℚ × ℚ) → List (ℚ × ℚ))
    (color : String) (pathCenter : Point2) (pts : List Pt) (st : CanvasState) :
    CanvasState :=
  if pts.length < 2 then st
  else
    let stroke := getStrokeFn (pts.map fun p => (p.x, p.y, p.pressure))
    if stroke.length = 0 then st
    else
      { st with
        objects := st.objects ++ [.path (getSvgPathFromStroke stroke) color pathCenter] }

/-- Source function `undo`: with no objects it does nothing; otherwise it
removes the last object of the canvas (each added object is a fresh
instance, so fabric's reference-based `remove` deletes exactly that last
entry) and discards the active object. -/
def undo (st : CanvasState) : CanvasState :=
  if st.objects.length = 0 then st
  else { objects := st.objects.dropLast, active := none }

/-- A layer record (`Layer` imported from `LayerPanel`), with the fields
the component constructs and reads: id, name, visibility, lock, and the
`objects` array. -/
structure Layer where
  id : String
  name : String
  visible : Bool
  locked : Bool
  objects : List FabricObject
deriving DecidableEq

instance : Inhabited Layer := ⟨⟨"", "", true, false, []⟩⟩

/-- The component state the layer and canvas claims range over: the layer
list, the active layer id, and the fabric canvas's object list. -/
structure BoardState where
  layers : List Layer
  activeLayerId : String
  canvasObjects : List FabricObject
deriving DecidableEq

/-- The initial state: the single layer `layer-1` with empty `objects`,
active, over an empty canvas. -/
def initialBoard : BoardState :=
  { layers := [{ id := "layer-1", name := "Layer 1", visible := true,
                 locked := false, objects := [] }],
    activeLayerId := "layer-1",
    canvasObjects := [] }

/-- Source function `handleLayerSelect`. -/
def handleLayerSelect (id : String) (st : BoardState) : BoardState :=
  { st with activeLayerId := id }

/-- Source function `handleLayerAdd`; `now` is the value of `Date.now()` at the call. -/
def handleLayerAdd (now : ℕ) (st : BoardState) : BoardState :=
  let newLayer : Layer :=
    { id := "layer-" ++ toString now,
      name := "Layer " ++ toString (st.layers.length + 1),
      visible := true, locked := false, objects := [] }
  { st with layers := st.layers ++ [newLayer], activeLayerId := newLayer.id }

/-- Source function `handleLayerDelete`: refuses when at most one layer remains;
otherwise filters out the given id and, when the active layer was
deleted, re-targets the first remaining layer (`?.id || layers[0].id`,
so a JavaScript-falsy empty id would also fall back to `layers[0].id`). -/
def handleLayerDelete (id : String) (st : BoardState) : BoardState :=
  if st.layers.length ≤ 1 then st
  else
    let newActive :=
      if st.activeLayerId = id then
        match st.layers.find? (fun l => decide (l.id ≠ id)) with
        | some l => if l.id = "" then (st.layers.getD 0 default).id else l.id
        | none => (st.layers.getD 0 default).id
      else st.activeLayerId
    { st with layers := st.layers.filter (fun l => decide (l.id ≠ id)),
              activeLayerId := newActive }

/-- Source function `handleLayerToggleVisible`. -/
def handleLayerToggleVisible (id : String) (st : BoardState) : BoardState :=
  { st with layers :=
      st.layers.map (fun l => if l.id = id then { l with visible := !l.visible } else l) }

/-- Source function `handleLayerToggleLock`. -/
def handleLayerToggleLock (id : String) (st : BoardState) : BoardState :=
  { st with layers :=
      st.layers.map (fun l => if l.id = id then { l with locked := !l.locked } else l) }

/-- Source function `handleLayerReorder`: `splice(fromIndex, 1)` removes the moved layer,
`splice(toIndex, 0, moved)` re-inserts it (`List.take`/`List.drop` clamp
exactly as `splice` clamps an out-of-range insertion index).  An
out-of-range `fromIndex` would splice `undefined` into the JavaScript
array, which has no `Layer` representation; the panel only passes indices
of existing layers, and the model keeps the state unchanged there. -/
def handleLayerReorder (fromIndex toIndex : ℕ) (st : BoardState) : BoardState :=
  if h : fromIndex < st.layers.length then
    let moved := st.layers.get ⟨fromIndex, h⟩
    let rest := st.layers.take fromIndex ++ st.layers.drop (fromIndex + 1)
    { st with layers := rest.take toIndex ++ [moved] ++ rest.drop toIndex }
  else st

/-- The layer operations of the component. -/
inductive LayerOp where
  | select (id : String)
  | add (now : ℕ)
  | delete (id : String)
  | toggleVisible (id : String)
  | toggleLock (id : String)
  | reorder (fromIndex toIndex : ℕ)

/-- Dispatch of a layer operation to its handler. -/
def applyLayerOp : LayerOp → BoardState → BoardState
  | .select id => handleLayerSelect id
  | .add now => handleLayerAdd now
  | .delete id => handleLayerDelete id
  | .toggleVisible id => handleLayerToggleVisible id
  | .toggleLock id => handleLayerToggleLock id
  | .reorder f t => handleLayerReorder f t

/-- The zoom operations of the component: wheel zoom with the event's
`deltaY`, the zoom-in / zoom-out buttons, and the reset / fit-to-canvas
buttons (both of which set zoom to 1). -/
inductive ZoomOp where
  | wheel (deltaY : ℚ)
  | zoomIn
  | zoomOut
  | resetView
  | fitToCanvas

/-- One zoom update, from the source: `handleWheel` clamps
`zoom ± 0.1` into `[0.1, 5]`, `handleZoomIn` is `min(5, prev + 0.2)`,
`handleZoomOut` is `max(0.1, prev - 0.2)`, and reset / fit set 1. -/
def zoomStep (z : ℚ) : ZoomOp → ℚ
  | .wheel deltaY => max 0.1 (min 5 (z + (if deltaY > 0 then -0.1 else 0.1)))
  | .zoomIn => min 5 (z + 0.2)
  | .zoomOut => max 0.1 (z - 0.2)
  | .resetView => 1
  | .fitToCanvas => 1

/-- The initial zoom state. -/
def initialZoom : ℚ := 1

/-- A DOM pointer event, as far as the handlers read one. -/
structure PointerEvent where
  clientX : ℚ
  clientY : ℚ
  pressure : ℚ
  timeStamp : ℚ
deriving DecidableEq

/-- The overlay's bounding client rect, as far as `getPos` reads it. -/
structure BoundingRect where
  left : ℚ
  top : ℚ
deriving DecidableEq

/-- Source function `getPos`: event client coordinates relative to the
overlay's bounding rect. -/
def getPos (rect : BoundingRect) (e : PointerEvent) : Point2 :=
  { x := e.clientX - rect.left, y := e.clientY - rect.top }

/-- The sample recorded in draw mode: position from `getPos`, pressure
`e.pressure || 0.5` (0, the only falsy value in `[0, 1]`, falls back to
0.5), timestamp `e.timeStamp`. -/
def drawPoint (rect : BoundingRect) (e : PointerEvent) : Pt :=
  { x := (getPos rect e).x,
    y := (getPos rect e).y,
    pressure := if e.pressure = 0 then 0.5 else e.pressure,
    t := e.timeStamp }

/-- Source handler `onPointerDown` in draw mode: `pointsRef` is reset to empty and the
sample for the event is pushed. -/
def onPointerDownDraw (rect : BoundingRect) (e : PointerEvent) : List Pt :=
  [drawPoint rect e]

/-- Source handler `onPointerMove` in draw mode (while drawing): the sample for the
event is pushed onto the recorded list. -/
def onPointerMoveDraw (rect : BoundingRect) (e : PointerEvent) (pts : List Pt) :
    List Pt :=
  pts ++ [drawPoint rect e]

/-! ### Concrete sample inputs (used by the witnesses) -/

/-- A concrete lasso gesture: the triangle (0,0), (10,0), (0,10). -/
def lassoPts : List Pt := [⟨0, 0, 0.5, 0⟩, ⟨10, 0, 0.5, 1⟩, ⟨0, 10, 0.5, 2⟩]

/-- A rectangle whose center (2,2) lies inside `lassoPts`. -/
def lassoObjA : FabricObject := .rect "#3b82f6" ⟨2, 2⟩

/-- A circle whose center (50,50) lies outside `lassoPts`. -/
def lassoObjB : FabricObject := .circle "#ff0000" ⟨50, 50⟩

/-- A canvas holding the two sample objects and no active selection. -/
def lassoCanvas : CanvasState := ⟨[lassoObjA, lassoObjB], none⟩

/-- A board with two distinct layers, the second one active. -/
def twoLayerBoard : BoardState :=
  { layers := [⟨"layer-1", "Layer 1", true, false, []⟩,
               ⟨"layer-2", "Layer 2", true, false, []⟩],
    activeLayerId := "layer-2",
    canvasObjects := [] }

/-! ### Helper lemmas -/

/-- Applying a pointwise involution twice over a list is the identity. -/
theorem map_invol {α : Type} (f : α → α) (hf : ∀ a, f (f a) = a) (l : List α) :
    (l.map f).map f = l := by
  induction l with
  | nil => rfl
  | cons a as ih => simp [hf, ih]

/-- One application of the visibility toggle body undoes another. -/
theorem toggleVisible_body_invol (id : String) (l : Layer) :
    (fun l : Layer => if l.id = id then { l with visible := !l.visible } else l)
      ((fun l : Layer => if l.id = id then { l with visible := !l.visible } else l) l)
      = l := by
  cases l with
  | mk lid lname lvis llock lobj => by_cases h : lid = id <;> simp [h]

/-- One application of the lock toggle body undoes another. -/
theorem toggleLock_body_invol (id : String) (l : Layer) :
    (fun l : Layer => if l.id = id then { l with locked := !l.locked } else l)
      ((fun l : Layer => if l.id = id then { l with locked := !l.locked } else l) l)
      = l := by
  cases l with
  | mk lid lname lvis llock lobj => by_cases h : lid = id <;> simp [h]

/-- A single zoom update keeps the zoom factor inside `[0.1, 5]`. -/
theorem zoomStep_bounds (z : ℚ) (op : ZoomOp) (h1 : 0.1 ≤ z) (h2 : z ≤ 5) :
    0.1 ≤ zoomStep z op ∧ zoomStep z op ≤ 5 := by
  cases op with
  | wheel deltaY =>
    refine ⟨le_max_left _ _, max_le (by norm_num) (min_le_left _ _)⟩
  | zoomIn =>
    exact ⟨le_min (by norm_num) (by linarith), min_le_left _ _⟩
  | zoomOut =>
    exact ⟨le_max_left _ _, max_le (by norm_num) (by linarith)⟩
  | resetView => norm_num [zoomStep]
  | fitToCanvas => norm_num [zoomStep]

/-- Folding zoom updates from any in-range zoom stays in `[0.1, 5]`. -/
theorem zoom_foldl_bounds (ops : List ZoomOp) (z : ℚ) (h1 : 0.1 ≤ z) (h2 : z ≤ 5) :
    0.1 ≤ ops.foldl zoomStep z ∧ ops.foldl zoomStep z ≤ 5 := by
  induction ops generalizing z with
  | nil => exact ⟨h1, h2⟩
  | cons op ops ih =>
    obtain ⟨ha, hb⟩ := zoomStep_bounds z op h1 h2
    exact ih (zoomStep z op) ha hb

/-! ### Claim theorems -/

/-- Claim C4: starting from the initial zoom of 1, every sequence of zoom
operations — wheel zoom, `handleZoomIn`, `handleZoomOut`, `handleResetView`
(and fit-to-canvas, which also sets 1) — yields a zoom `z` with
`0.1 ≤ z ≤ 5`. -/
theorem zoom_stays_within_bounds (ops : List ZoomOp) :
    0.1 ≤ ops.foldl zoomStep initialZoom ∧ ops.foldl zoomStep initialZoom ≤ 5 :=
  zoom_foldl_bounds ops initialZoom (by norm_num [initialZoom]) (by norm_num [initialZoom])

/-- Claim C7: `onPointerDown` and `onPointerMove` in draw mode append a
sample whose `x`/`y` are the client coordinates minus the overlay rect's
origin, whose `t` is the event's `timeStamp`, and whose pressure is the
event's pressure when non-zero and 0.5 otherwise; with event pressure in
`[0, 1]` the stored pressure is strictly positive. -/
theorem draw_samples_spec (rect : BoundingRect) (e : PointerEvent) (pts : List Pt) :
    onPointerDownDraw rect e = [drawPoint rect e] ∧
    onPointerMoveDraw rect e pts = pts ++ [drawPoint rect e] ∧
    (drawPoint rect e).x = e.clientX - rect.left ∧
    (drawPoint rect e).y = e.clientY - rect.top ∧
    (drawPoint rect e).t = e.timeStamp ∧
    (e.pressure ≠ 0 → (drawPoint rect e).pressure = e.pressure) ∧
    (e.pressure = 0 → (drawPoint rect e).pressure = 0.5) ∧
    (0 ≤ e.pressure → e.pressure ≤ 1 → 0 < (drawPoint rect e).pressure) := by
  refine ⟨rfl, rfl, rfl, rfl, rfl, ?_, ?_, ?_⟩
  · intro h; simp [drawPoint, h]
  · intro h; simp [drawPoint, h]
  · intro h0 _
    by_cases hp : e.pressure = 0
    · simp only [drawPoint, hp, if_pos]
      norm_num
    · simp only [drawPoint, hp, if_neg, if_false]
      exact lt_of_le_of_ne h0 (Ne.symm hp)

/-- Witness for C7 at a concrete event with zero pressure. -/
theorem draw_samples_spec_witness :
    (drawPoint ⟨3, 4⟩ ⟨10, 20, 0, 99⟩).pressure = 0.5 ∧
    0 < (drawPoint ⟨3, 4⟩ ⟨10, 20, 0, 99⟩).pressure :=
  ⟨(draw_samples_spec ⟨3, 4⟩ ⟨10, 20, 0, 99⟩ []).2.2.2.2.2.2.1 rfl,
   (draw_samples_spec ⟨3, 4⟩ ⟨10, 20, 0, 99⟩ []).2.2.2.2.2.2.2 (by norm_num) (by norm_num)⟩

/-- Claim C9: `undo` on a non-empty object list removes exactly the last
object, keeping the earlier ones in order, and discards the active
selection; on an empty list it changes nothing. -/
theorem undo_removes_last (st : CanvasState) :
    (st.objects = [] → undo st = st) ∧
    (∀ l a, st.objects = l ++ [a] → undo st = { objects := l, active := none }) := by
  constructor
  · intro h; simp [undo, h]
  · intro l a h
    simp [undo, h, List.dropLast_concat]

/-- Witness for C9: a two-object canvas and the empty canvas. -/
theorem undo_removes_last_witness :
    undo ⟨[.rect "#3b82f6" ⟨200, 170⟩, .circle "#ff0000" ⟨220, 220⟩],
        some (.single (.circle "#ff0000" ⟨220, 220⟩))⟩ =
      ⟨[.rect "#3b82f6" ⟨200, 170⟩], none⟩ ∧
    undo ⟨[], none⟩ = ⟨[], none⟩ :=
  ⟨(undo_removes_last _).2 [.rect "#3b82f6" ⟨200, 170⟩] (.circle "#ff0000" ⟨220, 220⟩) rfl,
   (undo_removes_last _).1 rfl⟩

/-- Claim C10: the visibility and lock toggles change only the targeted
flag of the layer(s) with the given id, keep every other layer, the list
length and order, and are involutions. -/
theorem layer_toggles_spec (id : String) (st : BoardState) (i : ℕ) :
    (handleLayerToggleVisible id st).layers.length = st.layers.length ∧
    (handleLayerToggleLock id st).layers.length = st.layers.length ∧
    (handleLayerToggleVisible id st).layers.get? i =
      (st.layers.get? i).map
        (fun l => if l.id = id then { l with visible := !l.visible } else l) ∧
    (handleLayerToggleLock id st).layers.get? i =
      (st.layers.get? i).map
        (fun l => if l.id = id then { l with locked := !l.locked } else l) ∧
    handleLayerToggleVisible id (handleLayerToggleVisible id st) = st ∧
    handleLayerToggleLock id (handleLayerToggleLock id st) = st := by
  refine ⟨by simp [handleLayerToggleVisible], by simp [handleLayerToggleLock],
          ?_, ?_, ?_, ?_⟩
  · simp [handleLayerToggleVisible, List.get?_map]
  · simp [handleLayerToggleLock, List.get?_map]
  · simp only [handleLayerToggleVisible]
    rw [map_invol _ (toggleVisible_body_invol id)]
  · simp only [handleLayerToggleLock]
    rw [map_invol _ (toggleLock_body_invol id)]

/-- Claim C5: finishing a pen stroke with at least 2 samples and a
non-empty outline adds exactly one new `FabricPath` — filled with the
current color, with path data `getSvgPathFromStroke` of the outline —
after all previously present objects; otherwise the canvas is
unchanged. -/
theorem finalizeStroke_adds_one_path
    (getStrokeFn : List (ℚ × ℚ × ℚ) → List (ℚ × ℚ)) (color : String)
    (pathCenter : Point2) (pts : List Pt) (st : CanvasState) :
    finalizeStroke getStrokeFn color pathCenter pts st =
      if 2 ≤ pts.length ∧ getStrokeFn (pts.map fun p => (p.x, p.y, p.pressure)) ≠ [] then
        { st with objects := st.objects ++
            [.path (getSvgPathFromStroke (getStrokeFn (pts.map fun p => (p.x, p.y, p.pressure))))
               color pathCenter] }
      else st := by
  by_cases h1 : pts.length < 2
  · rw [if_neg (fun hc => absurd hc.1 (by omega))]
    simp [finalizeStroke, h1]
  · by_cases h2 : getStrokeFn (pts.map fun p => (p.x, p.y, p.pressure)) = []
    · rw [if_neg (fun hc => hc.2 h2)]
      simp [finalizeStroke, h1, h2]
    · rw [if_pos ⟨by omega, h2⟩]
      simp only [finalizeStroke, if_neg h1]
      rw [if_neg (by simpa [List.length_eq_zero] using h2)]

/-- Claim C1: a finished lasso with at least 3 points selects exactly the
objects whose center lies inside the lasso polygon per `isPointInPolygon`;
several such objects become one `ActiveSelection`, exactly one becomes
the active object, none leaves the active selection unchanged — and the
object list itself is never modified. -/
theorem finalizeLasso_selects_by_center (pts : List Pt) (st : CanvasState)
    (h3 : 3 ≤ pts.length) :
    (∀ o, o ∈ st.objects.filter (fun o => isPointInPolygon o.getCenterPoint pts) ↔
        o ∈ st.objects ∧ isPointInPolygon o.getCenterPoint pts = true) ∧
    (finalizeLasso pts st).objects = st.objects ∧
    (match st.objects.filter (fun o => isPointInPolygon o.getCenterPoint pts) with
     | [] => (finalizeLasso pts st).active = st.active
     | [o] => (finalizeLasso pts st).active = some (.single o)
     | os => (finalizeLasso pts st).active = some (.selection os)) := by
  have hn : ¬ pts.length < 3 := by omega
  refine ⟨fun o => List.mem_filter, ?_, ?_⟩
  · simp only [finalizeLasso, if_neg hn]
    split
    · split <;> rfl
    · rfl
  · rcases hsel : st.objects.filter (fun o => isPointInPolygon o.getCenterPoint pts) with
      _ | ⟨o, _ | ⟨o2, os⟩⟩ <;>
      simp only [finalizeLasso, if_neg hn, hsel] <;> simp

/-- Witness for C1: the triangle lasso over the two sample objects keeps
the object list and activates the single object whose center is inside. -/
theorem finalizeLasso_selects_by_center_witness :
    (finalizeLasso lassoPts lassoCanvas).objects = [lassoObjA, lassoObjB] ∧
    (finalizeLasso lassoPts lassoCanvas).active = some (.single lassoObjA) := by
  have h := finalizeLasso_selects_by_center lassoPts lassoCanvas (by decide)
  refine ⟨h.2.1, ?_⟩
  have hin : isPointInPolygon lassoObjA.getCenterPoint lassoPts = true := by
    norm_num [lassoObjA, FabricObject.getCenterPoint, isPointInPolygon, lassoPts,
      List.range_succ]
  have hout : isPointInPolygon lassoObjB.getCenterPoint lassoPts = false := by
    norm_num [lassoObjB, FabricObject.getCenterPoint, isPointInPolygon, lassoPts,
      List.range_succ]
  have hfil : lassoCanvas.objects.filter
      (fun o => isPointInPolygon o.getCenterPoint lassoPts) = [lassoObjA] := by
    simp [lassoCanvas, List.filter_cons, hin, hout]
  have h2 := h.2.2
  rw [hfil] at h2
  exact h2

/-- If at most one list entry matches the id, filtering it out of a list
of at least two layers leaves the list non-empty. -/
theorem filter_ne_nil_of_countP_le_one (layers : List Layer) (id : String)
    (hlen : 2 ≤ layers.length)
    (huniq : layers.countP (fun l => decide (l.id = id)) ≤ 1) :
    layers.filter (fun l => decide (l.id ≠ id)) ≠ [] := by
  have hlf : layers.countP (fun l => decide (l.id ≠ id))
      = (layers.filter (fun l => decide (l.id ≠ id))).length :=
    List.countP_eq_length_filter _ _
  have hsplit := List.length_eq_countP_add_countP (fun l => decide (l.id = id)) (l := layers)
  have hpq : (fun a : Layer => decide ¬(decide (a.id = id) = true))
      = (fun a : Layer => decide (a.id ≠ id)) := by
    funext a
    by_cases h : a.id = id <;> simp [h]
  rw [hpq, hlf] at hsplit
  intro hnil
  rw [hnil] at hsplit
  simp at hsplit
  omega

/-- Claim C3: `handleLayerDelete` leaves a list of at most one layer (and
the active id) unchanged; on a longer list (with the given id occurring
at most once, as the generated ids do) it removes exactly the layer with
that id, so the layer list never becomes empty. -/
theorem handleLayerDelete_keeps_a_layer (id : String) (st : BoardState)
    (huniq : st.layers.countP (fun l => decide (l.id = id)) ≤ 1) :
    (st.layers.length ≤ 1 → handleLayerDelete id st = st) ∧
    (2 ≤ st.layers.length →
      (handleLayerDelete id st).layers = st.layers.filter (fun l => decide (l.id ≠ id)) ∧
      (handleLayerDelete id st).layers ≠ []) := by
  constructor
  · intro h; simp [handleLayerDelete, h]
  · intro h2
    have hn : ¬ st.layers.length ≤ 1 := by omega
    constructor
    · simp [handleLayerDelete, hn]
    · simp only [handleLayerDelete, if_neg hn]
      exact filter_ne_nil_of_countP_le_one st.layers id h2 huniq

/-- Witness for C3: deleting the active second layer of the two-layer
board keeps the first layer. -/
theorem handleLayerDelete_keeps_a_layer_witness :
    (handleLayerDelete "layer-2" twoLayerBoard).layers
        = [⟨"layer-1", "Layer 1", true, false, []⟩] ∧
    (handleLayerDelete "layer-2" twoLayerBoard).layers ≠ [] := by
  have h := (handleLayerDelete_keeps_a_layer "layer-2" twoLayerBoard (by decide)).2
    (by decide)
  exact ⟨h.1.trans (by decide), h.2⟩

/-- Claim C6: the initial layer carries no objects, and every layer
operation keeps every layer's `objects` field empty and leaves the fabric
canvas's object list untouched. -/
theorem layerOps_do_not_touch_canvas (op : LayerOp) (st : BoardState)
    (hobj : ∀ l ∈ st.layers, l.objects = []) :
    (∀ l ∈ initialBoard.layers, l.objects = []) ∧
    (applyLayerOp op st).canvasObjects = st.canvasObjects ∧
    (∀ l ∈ (applyLayerOp op st).layers, l.objects = []) := by
  refine ⟨by simp [initialBoard], ?_, ?_⟩
  · cases op with
    | select id => rfl
    | add now => rfl
    | delete id =>
      simp only [applyLayerOp, handleLayerDelete]
      split <;> rfl
    | toggleVisible id => rfl
    | toggleLock id => rfl
    | reorder f t =>
      simp only [applyLayerOp, handleLayerReorder]
      split <;> rfl
  · cases op with
    | select id => exact hobj
    | add now =>
      intro l hl
      simp only [applyLayerOp, handleLayerAdd, List.mem_append, List.mem_singleton] at hl
      rcases hl with h | h
      · exact hobj l h
      · subst h; rfl
    | delete id =>
      intro l hl
      simp only [applyLayerOp, handleLayerDelete] at hl
      split at hl
      · exact hobj l hl
      · exact hobj l (List.mem_of_mem_filter hl)
    | toggleVisible id =>
      intro l hl
      simp only [applyLayerOp, handleLayerToggleVisible] at hl
      obtain ⟨a, ha, rfl⟩ := List.mem_map.mp hl
      by_cases h : a.id = id <;> simp [h, hobj a ha]
    | toggleLock id =>
      intro l hl
      simp only [applyLayerOp, handleLayerToggleLock] at hl
      obtain ⟨a, ha, rfl⟩ := List.mem_map.mp hl
      by_cases h : a.id = id <;> simp [h, hobj a ha]
    | reorder f t =>
      intro l hl
      simp only [applyLayerOp, handleLayerReorder] at hl
      split at hl
      · rcases List.mem_append.mp hl with h1 | h1
        · rcases List.mem_append.mp h1 with h2 | h2
          · have h3 := List.mem_of_mem_take h2
            rcases List.mem_append.mp h3 with h4 | h4
            · exact hobj l (List.mem_of_mem_take h4)
            · exact hobj l (List.mem_of_mem_drop h4)
          · rw [List.mem_singleton] at h2
            subst h2
            exact hobj _ (st.layers.get_mem _ _)
        · have h3 := List.mem_of_mem_drop h1
          rcases List.mem_append.mp h3 with h4 | h4
          · exact hobj l (List.mem_of_mem_take h4)
          · exact hobj l (List.mem_of_mem_drop h4)
      · exact hobj l hl

/-- Witness for C6: adding a layer to the two-layer board leaves the
canvas object list unchanged. -/
theorem layerOps_do_not_touch_canvas_witness :
    (applyLayerOp (.add 42) twoLayerBoard).canvasObjects = twoLayerBoard.canvasObjects :=
  (layerOps_do_not_touch_canvas (.add 42) twoLayerBoard (by decide)).2.1

/-- Folding "flip the flag when `p` holds" over a list flips the start
value exactly when an odd number of entries satisfy `p`. -/
theorem foldl_toggle {α : Type} (p : α → Bool) (l : List α) (b : Bool) :
    l.foldl (fun inside i => if p i then !inside else inside) b
      = if Odd (l.countP p) then !b else b := by
  induction l generalizing b with
  | nil => simp
  | cons x xs ih =>
    simp only [List.foldl_cons, List.countP_cons]
    by_cases h : p x <;> by_cases hc : Odd (xs.countP p) <;>
      simp [h, hc, ih, Nat.odd_add_one]

/-- The boolean combination used by the loop body agrees with deciding
the corresponding proposition. -/
theorem bne_and_decide (a b c : Prop) [Decidable a] [Decidable b] [Decidable c] :
    ((decide a != decide b) && decide c) = decide (Xor' a b ∧ c) := by
  by_cases ha : a <;> by_cases hb : b <;> by_cases hc : c <;> simp [ha, hb, hc, Xor']

/-- The loop body's boolean test is the decision of `edgeCrossed`. -/
theorem edgeCrossedB_eq_decide (point : Point2) (polygon : List Pt) (i : ℕ) :
    edgeCrossedB point polygon i = decide (edgeCrossed point polygon i) := by
  unfold edgeCrossedB edgeCrossed
  exact bne_and_decide _ _ _

/-- Claim C2: `isPointInPolygon` implements ray casting: it returns true
iff the horizontal ray from the point crosses an odd number of polygon
edges, an edge `(i, j)` being counted exactly when the endpoints'
`y > point.y` tests differ and `point.x` is left of the edge's `x` at
that height. -/
theorem isPointInPolygon_iff_odd_crossings (point : Point2) (polygon : List Pt) :
    isPointInPolygon point polygon = true ↔ Odd (crossingCount point polygon) := by
  have h1 : isPointInPolygon point polygon
      = (List.range polygon.length).foldl
          (fun inside i => if edgeCrossedB point polygon i then !inside else inside)
          false := rfl
  have h2 : (List.range polygon.length).countP (edgeCrossedB point polygon)
      = crossingCount point polygon := by
    unfold crossingCount
    congr 1
    funext i
    exact edgeCrossedB_eq_decide point polygon i
  rw [h1, foldl_toggle, h2]
  by_cases h : Odd (crossingCount point polygon) <;> simp [h]

/-- Prepending the empty string is the identity. -/
theorem string_nil_append (s : String) : "" ++ s = s := rfl

/-- A fold that only appends to its accumulator is the accumulator
followed by the concatenation of the appended pieces. -/
theorem foldl_append_of_seg {α : Type} (g : α → String) (f : String → α → String)
    (hf : ∀ a x, f a x = a ++ g x) (l : List α) (a : String) :
    l.foldl f a = a ++ strConcatMap g l := by
  induction l generalizing a with
  | nil => simp [strConcatMap, String.append_empty]
  | cons x xs ih => simp [strConcatMap, List.foldl_cons, hf, ih, String.append_assoc]

/-- The segments emitted for the indices from 1 on: an `L` command per
point, the last one followed by the closing `L` back to the head point
and `Z`. -/
theorem svgSeg_enumFrom (p0 : ℚ × ℚ) (rest : List (ℚ × ℚ)) (l : List (ℚ × ℚ)) (s : ℕ)
    (hs : 1 ≤ s) (hlen : s + l.length = (p0 :: rest).length) (hne : l ≠ []) :
    strConcatMap (svgSeg (p0 :: rest)) (l.enumFrom s)
      = strConcatMap (fun p => "L" ++ fmtPoint p ++ " ") l ++ ("L" ++ fmtPoint p0 ++ " Z") := by
  induction l generalizing s with
  | nil => exact absurd rfl hne
  | cons q l' ih =>
    cases l' with
    | nil =>
      have hn : s + 1 = (p0 :: rest).length := by simpa using hlen
      have hlast : s = (p0 :: rest).length - 1 := by omega
      have hmod : (s + 1) % (p0 :: rest).length = 0 := by
        rw [hn]; exact Nat.mod_self _
      simp only [List.enumFrom, strConcatMap, svgSeg]
      rw [if_neg (show ¬ s = 0 by omega), if_pos hlast, hmod, List.getD_cons_zero]
      simp only [fmtPoint, String.append_assoc, String.append_empty]
    | cons q' l'' =>
      have hs0 : ¬ s = 0 := by omega
      have hslast : ¬ s = (p0 :: rest).length - 1 := by
        simp only [List.length_cons] at hlen ⊢
        omega
      show svgSeg (p0 :: rest) (s, q) ++
          strConcatMap (svgSeg (p0 :: rest)) (List.enumFrom (s + 1) (q' :: l''))
        = strConcatMap (fun p => "L" ++ fmtPoint p ++ " ") (q :: q' :: l'')
            ++ ("L" ++ fmtPoint p0 ++ " Z")
      rw [ih (s + 1) (by omega)
        (by simp only [List.length_cons] at hlen ⊢; omega) (by simp)]
      simp only [svgSeg]
      rw [if_neg hs0, if_neg hslast]
      simp only [strConcatMap, fmtPoint, String.append_assoc, String.append_empty]

/-- Claim C8: `getSvgPathFromStroke` maps the empty list to the empty
string and any non-empty point list to a closed path: `M` at the first
point, `L` at each subsequent point, and a final `L` back to the first
point followed by `Z` (coordinates rendered via `toFixed2`). -/
theorem getSvgPathFromStroke_closed (points : List (ℚ × ℚ)) :
    getSvgPathFromStroke points = svgPathSpecFromStroke points := by
  cases points with
  | nil => rfl
  | cons p0 rest =>
    have hne : ¬ (p0 :: rest).length = 0 := by simp
    have hf : ∀ (acc : String) (ip : ℕ × ℚ × ℚ),
        (fun (acc : String) (ip : ℕ × ℚ × ℚ) =>
          let i := ip.1
          let x0 := ip.2.1
          let y0 := ip.2.2
          let nxt := (p0 :: rest).getD ((i + 1) % (p0 :: rest).length) default
          let acc1 := acc ++ (if i = 0 then "M" else "L") ++ toFixed2 x0 ++ " " ++ toFixed2 y0 ++ " "
          if i = (p0 :: rest).length - 1 then
            acc1 ++ "L" ++ toFixed2 nxt.1 ++ " " ++ toFixed2 nxt.2 ++ " Z"
          else acc1) acc ip
          = acc ++ svgSeg (p0 :: rest) ip := by
      intro acc ip
      dsimp only
      simp only [svgSeg]
      by_cases h : ip.1 = (p0 :: rest).length - 1
      · rw [if_pos h, if_pos h]
        simp only [String.append_assoc]
      · rw [if_neg h, if_neg h]
        simp only [String.append_assoc, String.append_empty]
    have key := foldl_append_of_seg (svgSeg (p0 :: rest)) _ hf ((p0 :: rest).enum) ""
    unfold getSvgPathFromStroke
    rw [if_neg hne, key, List.enum_cons]
    cases rest with
    | nil =>
      show svgSeg (p0 :: []) (0, p0) ++ strConcatMap (svgSeg (p0 :: [])) (List.enumFrom 1 [])
        = svgPathSpecFromStroke (p0 :: [])
      simp only [List.enumFrom, strConcatMap, svgSeg, svgPathSpecFromStroke, if_true]
      rw [if_pos (show (0 : ℕ) = (p0 :: ([] : List (ℚ × ℚ))).length - 1 from rfl),
        show (p0 :: ([] : List (ℚ × ℚ))).getD
            ((0 + 1) % (p0 :: ([] : List (ℚ × ℚ))).length) default = p0 by simp]
      simp only [fmtPoint, String.append_assoc, String.append_empty, string_nil_append]
    | cons r rest' =>
      have hinner := svgSeg_enumFrom p0 (r :: rest') (r :: rest') 1 le_rfl
        (by simp only [List.length_cons]; omega) (by simp)
      show svgSeg (p0 :: r :: rest') (0, p0) ++
          strConcatMap (svgSeg (p0 :: r :: rest')) (List.enumFrom 1 (r :: rest'))
        = svgPathSpecFromStroke (p0 :: r :: rest')
      rw [hinner]
      simp only [svgSeg, if_true]
      rw [if_neg (show ¬ (0 : ℕ) = (p0 :: r :: rest').length - 1 by
          simp only [List.length_cons]; omega)]
      simp only [svgPathSpecFromStroke, fmtPoint, strConcatMap,
        String.append_assoc, String.append_empty, string_nil_append]
